import Mathlib

/-!
Verification of the BE Solar web backend (`core_backend.py`, `streamlit_app.py`)
against its natural-language specification.

The Python code is shallowly embedded: each relevant Python function becomes a
Lean definition operating on explicit data.  Database tables are lists of row
structures, the Supabase query builder is modelled as list filtering / sorting /
slicing, Python exceptions become `Option`, Python `int`/`float` string
coercion are modelled by executable parsers over `List Char`, and Python
floats are modelled by `ℚ` (the program only does sums, division and
2-decimal rounding, so exact rational arithmetic is the natural abstraction).
-/

namespace BeSolar

/-! ### String primitives

Python / SQL string operations, modelled structurally over `List Char` so that
everything reduces in the kernel. -/

/-- Model of Python `str.split(sep)` for a one-character separator:
`''.split(sep) == ['']`, and a separator at either end produces an empty
token, exactly as in Python. -/
def charListSplit (sep : Char) : List Char → List (List Char)
  | [] => [[]]
  | c :: rest =>
    if c = sep then [] :: charListSplit sep rest
    else
      match charListSplit sep rest with
      | [] => [[c]]
      | t :: ts => (c :: t) :: ts

/-- Model of Python `s.split("/")[-1]`: `split` never returns an empty list,
so indexing with `-1` is its last element. -/
def lastSlashToken (s : String) : List Char :=
  (charListSplit '/' s.data).getLastD []

/-- Strips leading and trailing whitespace, as Python `int()` / `float()` do
with their string argument. -/
def trimWs (l : List Char) : List Char :=
  ((l.dropWhile Char.isWhitespace).reverse.dropWhile Char.isWhitespace).reverse

/-- Numeric value of a list of decimal digit characters, most significant
first. -/
def digitsVal (l : List Char) : Nat :=
  l.foldl (fun a c => 10 * a + (c.toNat - 48)) 0

/-- Value of a nonempty all-digit token, `none` otherwise. -/
def decDigits? (l : List Char) : Option Nat :=
  if l ≠ [] ∧ l.all Char.isDigit then some (digitsVal l) else none

/-- Model of Python `int(s)` on a string: optional surrounding whitespace, an
optional sign, then a nonempty run of decimal digits; anything else raises
`ValueError`, modelled as `none`.  (Underscore digit grouping and non-ASCII
digits, which Python would also accept, are outside the model; the repository
only ever parses plain digit runs.) -/
def pyInt? (s : String) : Option Int :=
  let l := trimWs s.data
  if l.headD ' ' = '+' then (decDigits? l.tail).map (fun n => Int.ofNat n)
  else if l.headD ' ' = '-' then (decDigits? l.tail).map (fun n => Int.negOfNat n)
  else (decDigits? l).map (fun n => Int.ofNat n)

/-- Model of Python `str.zfill(w)`: left-pad with `'0'` to width `w`, keeping
a leading sign character in front of the inserted zeros; strings already at
least `w` characters long are returned unchanged. -/
def zfill (w : Nat) (s : String) : String :=
  if w ≤ s.length then s
  else if s.data.headD ' ' = '+' ∨ s.data.headD ' ' = '-' then
    ⟨s.data.headD ' ' :: (List.replicate (w - s.length) '0' ++ s.data.tail)⟩
  else ⟨List.replicate (w - s.length) '0' ++ s.data⟩

/-- Decimal digit characters of `n`, most significant first, accumulated into
`acc`.  Fuel-structured so that it reduces in the kernel; `fuel = n + 1`
always suffices. -/
def natChars : Nat → Nat → List Char → List Char
  | 0, _, acc => acc
  | fuel + 1, n, acc =>
    let acc' := Char.ofNat (48 + n % 10) :: acc
    if n < 10 then acc' else natChars fuel (n / 10) acc'

/-- Model of Python `str(n)` for a nonnegative integer. -/
def pyStrNat (n : Nat) : String := ⟨natChars (n + 1) n []⟩

/-- Model of Python `str(i)` for an integer. -/
def pyStrInt (i : Int) : String :=
  match i with
  | Int.ofNat n => pyStrNat n
  | Int.negSucc n => ⟨'-' :: natChars (n + 2) (n + 1) []⟩

/-- Does `needle` occur as a contiguous segment of `hay`?  Models both the
SQL `like '%needle%'` filter (case-sensitive) and Python `in`. -/
def containsSeg (needle : List Char) : List Char → Bool
  | [] => needle.isEmpty
  | c :: t => needle.isPrefixOf (c :: t) || containsSeg needle t

/-- Case-sensitive substring test on strings, as used by the `like`
pattern `%/<period>/%` of the reference allocators. -/
def strContains (hay needle : String) : Bool :=
  containsSeg needle.data hay.data

/-- Case-insensitive substring test, modelling the SQL `ilike '%pat%'`
filter used by the history search. -/
def ilikeContains (field pat : String) : Bool :=
  containsSeg (pat.data.map Char.toLower) (field.data.map Char.toLower)

/-- Lexicographic comparison of character lists by code point; models the
ordering the data store applies to the `created_at` text column. -/
def lexLe : List Char → List Char → Bool
  | [], _ => true
  | _ :: _, [] => false
  | a :: as, b :: bs =>
    if a.toNat < b.toNat then true
    else if a.toNat = b.toNat then lexLe as bs
    else false

/-- String `≤` by code points. -/
def strLe (a b : String) : Bool := lexLe a.data b.data

/-- Insert into a list sorted by `le`. -/
def insertBy {α : Type} (le : α → α → Bool) (x : α) : List α → List α
  | [] => [x]
  | y :: ys => if le x y then x :: y :: ys else y :: insertBy le x ys

/-- Insertion sort by `le`; models the data store's `order(...)` clause (the
claims only depend on the result being a permutation of the input). -/
def sortBy {α : Type} (le : α → α → Bool) : List α → List α
  | [] => []
  | x :: xs => insertBy le x (sortBy le xs)

/-! ### Numeric coercions -/

/-- Parses a nonempty run of digits with an optional single `'.'`
(`"5"`, `"1.5"`, `"1."`, `".5"`), the decimal-literal fragment accepted by
Python `float(s)`; exponents, `inf` and `nan` are outside the model (the
repository only ever stores plain decimal amounts). -/
def decFrac? (l : List Char) : Option ℚ :=
  match charListSplit '.' l with
  | [ip] =>
    if ip ≠ [] ∧ ip.all Char.isDigit then some (digitsVal ip : ℚ) else none
  | [ip, fp] =>
    if ip ++ fp ≠ [] ∧ (ip ++ fp).all Char.isDigit then
      some ((digitsVal (ip ++ fp) : ℚ) / 10 ^ fp.length)
    else none
  | _ => none

/-- Model of Python `float(s)` on a string: optional surrounding whitespace
and sign around a decimal literal; a failing parse (Python `ValueError`) is
`none`. -/
def pyFloat? (s : String) : Option ℚ :=
  let l := trimWs s.data
  if l.headD ' ' = '+' then decFrac? l.tail
  else if l.headD ' ' = '-' then (decFrac? l.tail).map Neg.neg
  else decFrac? l

/-- Round to the nearest integer, ties to the even integer — the rounding
rule of Python's `round`. -/
def roundHalfEven (q : ℚ) : ℤ :=
  let f := ⌊q⌋
  let r := q - f
  if r < 1 / 2 then f
  else if 1 / 2 < r then f + 1
  else if f % 2 = 0 then f else f + 1

/-- Model of Python `round(x, 2)`: round to 2 decimal places, ties to
even. -/
def pyRound2 (q : ℚ) : ℚ := (roundHalfEven (q * 100) : ℚ) / 100

/-- Model of Python `int(x)` on a number: truncation toward zero.  `Int.div`
is T-division, matching Python's truncation. -/
def pyTrunc (q : ℚ) : ℤ := q.num.tdiv (q.den : ℤ)

/-! ### Users and the login state machine

`validate_login` in `core_backend.py` (lines 50-84) looks the user row up by
username and applies all updates with `.eq("id", user["id"])`; the embedding
acts directly on that user's record.  `hashF` stands for
`hash_password` (a SHA-256 hex digest in the source); the code only ever
compares hash values for equality (`verify_password`), so the development is
parameterized by the hash function. -/

/-- A row of the `users` table.  `failed_attempts` is a nonnegative integer
(the code reads it with `int(user.get("failed_attempts", 0))`). -/
structure User where
  id : Nat
  username : String
  password_hash : String
  role : String
  active : Bool
  failed_attempts : Nat
  locked : Bool
  last_login : Option String
  last_logout : Option String
deriving DecidableEq, Repr

/-- The identity dictionary a successful login returns. -/
structure Identity where
  username : String
  role : String
deriving DecidableEq, Repr

/-- Model of `create_user`: the freshly inserted row. -/
def createUserRow (hashF : String → String) (id : Nat)
    (username password role : String) : User :=
  { id := id
    username := username
    password_hash := hashF password
    role := role
    active := true
    failed_attempts := 0
    locked := false
    last_login := none
    last_logout := none }

/-- Model of `validate_login` acting on the addressed user row: returns the
value the Python function returns together with the row after the
`supabase` update (the row is unchanged on the fail-closed paths, which
perform no update). -/
def validateLogin (hashF : String → String) (now : String) (u : User)
    (password : String) : Option Identity × User :=
  if u.locked then (none, u)
  else if !u.active then (none, u)
  else if hashF password == u.password_hash then
    (some ⟨u.username, u.role⟩, { u with failed_attempts := 0, last_login := some now })
  else
    let attempts := u.failed_attempts + 1
    (none, { u with failed_attempts := attempts, locked := decide (3 ≤ attempts) })

/-- Model of `record_logout` on the addressed user row. -/
def recordLogout (now : String) (u : User) : User :=
  { u with last_logout := some now }

/-- Model of `unlock_user` on the addressed user row. -/
def unlockUser (u : User) : User :=
  { u with failed_attempts := 0, locked := false }

/-- The operations of the repository that update an existing `users` row
(`create_user` and `ensure_default_admin` only insert new rows). -/
inductive UserOp where
  | login (password now : String)
  | logout (now : String)
  | unlock
deriving DecidableEq

/-- State change of one operation on one user row. -/
def applyOp (hashF : String → String) : UserOp → User → User
  | UserOp.login pw now, u => (validateLogin hashF now u pw).2
  | UserOp.logout now, u => recordLogout now u
  | UserOp.unlock, u => unlockUser u

/-! ### Reference allocators

`get_next_invoice_ref` / `get_next_agreement_no` (`core_backend.py` lines
109-140).  The current period key (`now.strftime("%m/%y")` resp.
`str(datetime.now().year)`) is an input of the model; the table is the list
of stored reference strings the `select` returns before the `like`
filter, which the model applies itself. -/

/-- The trailing-number collection both allocators share: keep the rows whose
reference contains `/<periodKey>/`, parse each row's last `/`-separated
token as an integer, silently dropping failures. -/
def periodNums (table : List String) (periodKey : String) : List Int :=
  (table.filter (fun r => strContains r ("/" ++ periodKey ++ "/"))).filterMap
    (fun r => pyInt? ⟨lastSlashToken r⟩)

/-- Model of `get_next_invoice_ref`: `month_key` is `now.strftime("%m/%y")`. -/
def getNextInvoiceRef (table : List String) (monthKey : String) : String :=
  let nums := periodNums table monthKey
  let nextNum : Int :=
    match nums.max? with
    | some m => m + 1
    | none => 1
  "BE/KNG/PMSG/QTN/" ++ monthKey ++ "/" ++ zfill 4 (pyStrInt nextNum)

/-- Model of `get_next_agreement_no`: `year` is `str(datetime.now().year)`. -/
def getNextAgreementNo (table : List String) (year : String) : String :=
  let nums := periodNums table year
  let nextNum : Int :=
    match nums.max? with
    | some m => m + 1
    | none => 1
  "AG/SG/APDCL/" ++ year ++ "/" ++ zfill 4 (pyStrInt nextNum)

/-- The spec's own wording of the allocation algorithm (spec §4.2), written
independently of the code-side pipeline: per row, when its period segment
matches the current period key, parse its trailing numeric segment, skipping
rows that do not parse; take the maximum, or 0 if none found; the next value
is max + 1, zero-padded to 4 digits after the fixed prefix and the period
key. -/
def specNextReference (pre : String) (table : List String)
    (periodKey : String) : String :=
  let nums := table.filterMap (fun r =>
    if strContains r ("/" ++ periodKey ++ "/") then pyInt? ⟨lastSlashToken r⟩
    else none)
  pre ++ periodKey ++ "/" ++ zfill 4 (pyStrInt ((nums.max?).getD 0 + 1))

/-! ### History queries

`fetch_invoices` / `fetch_agreements` (`core_backend.py` lines 154-190).
The table is the list of stored rows; `eq`, `or_(ilike...)`, `order` and
`range` of the query builder become filter, sort and slice.  `search=None`
and `search=""` are both falsy in `if search:`. -/

/-- A row of the `invoices` table (every column the application inserts;
`capacity` and `amount` are held as the stored text of the value, coerced
back to numbers by the aggregations). -/
structure InvoiceRow where
  invoice_ref : String
  customer_name : String
  phone : String
  address : String
  consumer_no : String
  subdivision : String
  capacity : String
  phase : String
  amount : String
  created_by : String
  created_at : String
deriving DecidableEq, Repr

/-- A row of the `agreements` table. -/
structure AgreementRow where
  agreement_no : String
  customer_name : String
  phone : String
  address : String
  consumer_no : String
  subdivision : String
  capacity : String
  phase : String
  amount : String
  created_by : String
  created_at : String
deriving DecidableEq, Repr

/-- Result dictionary of the history fetchers: the page slice and the exact
total count of matching rows. -/
structure FetchResult (α : Type) where
  data : List α
  count : Nat
deriving DecidableEq

/-- Shared query pipeline of both fetchers: role scoping, optional OR-search,
order by `created_at` descending, then the inclusive slice
`range(offset, offset + limit - 1)`.  `count` is the exact count of all
rows matching the filters. -/
def runFetch {α : Type} (createdBy : α → String) (matchRow : String → α → Bool)
    (createdAt : α → String) (table : List α) (role username : String)
    (search : Option String) (limit offset : Nat) : FetchResult α :=
  let q1 := if role ≠ "admin" then table.filter (fun r => createdBy r == username) else table
  let q2 :=
    match search with
    | some s => if s.data ≠ [] then q1.filter (matchRow s) else q1
    | none => q1
  let ordered := sortBy (fun a b => strLe (createdAt b) (createdAt a)) q2
  { data := (ordered.drop offset).take limit, count := q2.length }

/-- Model of `fetch_invoices`: search is an `ilike` OR across customer name,
phone and invoice reference. -/
def fetchInvoices (table : List InvoiceRow) (role username : String)
    (search : Option String) (limit offset : Nat) : FetchResult InvoiceRow :=
  runFetch (fun r => r.created_by)
    (fun s r => ilikeContains r.customer_name s || ilikeContains r.phone s ||
      ilikeContains r.invoice_ref s)
    (fun r => r.created_at) table role username search limit offset

/-- Model of `fetch_agreements`: search is an `ilike` OR across customer
name, phone and agreement number. -/
def fetchAgreements (table : List AgreementRow) (role username : String)
    (search : Option String) (limit offset : Nat) : FetchResult AgreementRow :=
  runFetch (fun r => r.created_by)
    (fun s r => ilikeContains r.customer_name s || ilikeContains r.phone s ||
      ilikeContains r.agreement_no s)
    (fun r => r.created_at) table role username search limit offset

/-! ### Totals and analytics aggregations -/

/-- Result of `calculate_invoice_totals` / `calculate_agreement_totals`. -/
structure TotalsResult where
  count : Nat
  total_amount : ℚ
deriving DecidableEq

/-- Model of `calculate_invoice_totals`: the running `float(...)` sum whose
`try/except` skips rows with an unparseable amount. -/
def calculateInvoiceTotals (invoices : List InvoiceRow) : TotalsResult :=
  let total := invoices.foldl
    (fun acc i =>
      match pyFloat? i.amount with
      | some v => acc + v
      | none => acc) 0
  { count := invoices.length, total_amount := total }

/-- Model of `calculate_agreement_totals`, identical to the invoice version. -/
def calculateAgreementTotals (agreements : List AgreementRow) : TotalsResult :=
  let total := agreements.foldl
    (fun acc a =>
      match pyFloat? a.amount with
      | some v => acc + v
      | none => acc) 0
  { count := agreements.length, total_amount := total }

/-- KPI dictionary of `get_revenue_kpis`. -/
structure Kpis where
  total_revenue : ℚ
  total_invoices : Nat
  avg_value : ℚ
deriving DecidableEq

/-- Model of `get_revenue_kpis` applied to the invoices the date-range fetch
returned: `sum(float(i["amount"]) ...)` raises (here: `none`) on the first
amount `float()` cannot parse; otherwise the KPI dictionary is returned,
with average 0 when the count is 0 and `round(total / count, 2)` otherwise. -/
def getRevenueKpis (invoices : List InvoiceRow) : Option Kpis :=
  (invoices.mapM (fun i => pyFloat? i.amount)).map (fun amounts =>
    let total_revenue := amounts.sum
    let total_count := invoices.length
    let avg_value :=
      if total_count ≠ 0 then pyRound2 (total_revenue / (total_count : ℚ)) else 0
    { total_revenue := total_revenue
      total_invoices := total_count
      avg_value := avg_value })

/-- Python-dict lookup (first, and only, binding of the key). -/
def dictGet {β : Type} (d : List (String × β)) (k : String) : Option β :=
  (d.find? (fun p => p.1 == k)).map (fun p => p.2)

/-- Python-dict assignment: replace the value in place if the key exists,
else append the new binding. -/
def dictSet {β : Type} : List (String × β) → String → β → List (String × β)
  | [], k, v => [(k, v)]
  | (k', v') :: t, k, v =>
    if k' == k then (k', v) :: t else (k', v') :: dictSet t k v

/-- Model of Python `s[:10]`, the date-truncation of a timestamp. -/
def strTake10 (s : String) : String := ⟨s.data.take 10⟩

/-- Model of `get_daily_revenue_series`: per-day sums of `float(amount)`
(raising, i.e. `none`, on an unparseable amount), returned as the items
sorted ascending by day. -/
def getDailyRevenueSeries (invoices : List InvoiceRow) : Option (List (String × ℚ)) :=
  (invoices.mapM (fun i => (pyFloat? i.amount).map (fun a => (strTake10 i.created_at, a)))).map
    (fun pairs =>
      let series := pairs.foldl
        (fun d p => dictSet d p.1 (((dictGet d p.1).getD 0) + p.2)) []
      sortBy (fun x y => strLe x.1 y.1) series)

/-- Model of `get_staff_performance`: per-creator sums of `float(amount)`,
raising (`none`) on an unparseable amount. -/
def getStaffPerformance (invoices : List InvoiceRow) : Option (List (String × ℚ)) :=
  (invoices.mapM (fun i => (pyFloat? i.amount).map (fun a => (i.created_by, a)))).map
    (fun pairs =>
      pairs.foldl (fun d p => dictSet d p.1 (((dictGet d p.1).getD 0) + p.2)) [])

/-- Model of `get_phase_split`: a counting dict pre-seeded with both phase
labels at 0. -/
def getPhaseSplit (invoices : List InvoiceRow) : List (String × Nat) :=
  invoices.foldl
    (fun d i => dictSet d i.phase (((dictGet d i.phase).getD 0) + 1))
    [("Single Phase", 0), ("Three Phase", 0)]

/-! ### Document generation (`streamlit_app.py` lines 139-206)

`generate_documents_page` derives `phase` and `total_amount` from the
selected capacity and writes the same derived values into the invoice insert
and the agreement insert of the one button action. -/

/-- `RATE_PER_KW = 70000`. -/
def RATE_PER_KW : ℚ := 70000

/-- `phase = "Three Phase" if capacity >= 5 else "Single Phase"`. -/
def derivedPhase (capacity : ℚ) : String :=
  if 5 ≤ capacity then "Three Phase" else "Single Phase"

/-- `total_amount = int(capacity * RATE_PER_KW)`. -/
def derivedAmount (capacity : ℚ) : ℤ :=
  pyTrunc (capacity * RATE_PER_KW)

/-- The invoice dictionary passed to `insert_invoice`, with the numeric
fields kept numeric. -/
structure InvoiceInsert where
  invoice_ref : String
  customer_name : String
  phone : String
  address : String
  consumer_no : String
  subdivision : String
  capacity : ℚ
  phase : String
  amount : ℤ
  created_by : String
  created_at : String
deriving DecidableEq

/-- The agreement dictionary passed to `insert_agreement`. -/
structure AgreementInsert where
  agreement_no : String
  customer_name : String
  phone : String
  address : String
  consumer_no : String
  subdivision : String
  capacity : ℚ
  phase : String
  amount : ℤ
  created_by : String
  created_at : String
deriving DecidableEq

/-- The invoice record one generation action inserts. -/
def buildInvoiceInsert (invoice_ref customer_name phone address consumer_no
    subdivision : String) (capacity : ℚ) (created_by created_at : String) :
    InvoiceInsert :=
  { invoice_ref := invoice_ref
    customer_name := customer_name
    phone := phone
    address := address
    consumer_no := consumer_no
    subdivision := subdivision
    capacity := capacity
    phase := derivedPhase capacity
    amount := derivedAmount capacity
    created_by := created_by
    created_at := created_at }

/-- The agreement record the same generation action inserts. -/
def buildAgreementInsert (agreement_no customer_name phone address consumer_no
    subdivision : String) (capacity : ℚ) (created_by created_at : String) :
    AgreementInsert :=
  { agreement_no := agreement_no
    customer_name := customer_name
    phone := phone
    address := address
    consumer_no := consumer_no
    subdivision := subdivision
    capacity := capacity
    phase := derivedPhase capacity
    amount := derivedAmount capacity
    created_by := created_by
    created_at := created_at }

/-! ### C1, C2, C10: the login state machine -/

/-- C1: for every (unlocked, active) user, a wrong-password call to
`validate_login` increments `failed_attempts`, returns `None`, and sets
`locked = true` exactly when the incremented count reaches 3; and while
`locked = true` every `validate_login` call returns `None` and leaves the row
unchanged — in particular also when the supplied password is correct, since
the locked check precedes password verification. -/
theorem validateLogin_lockout (hashF : String → String) (now : String)
    (u : User) (pw : String) :
    (u.locked = false → u.active = true → hashF pw ≠ u.password_hash →
      (validateLogin hashF now u pw).1 = none ∧
      (validateLogin hashF now u pw).2.failed_attempts = u.failed_attempts + 1 ∧
      ((validateLogin hashF now u pw).2.locked = true ↔ 3 ≤ u.failed_attempts + 1)) ∧
    (u.locked = true →
      (validateLogin hashF now u pw).1 = none ∧
      (validateLogin hashF now u pw).2 = u) := by
  constructor
  · intro hl ha hm
    simp [validateLogin, hl, ha, beq_iff_eq, hm]
  · intro hl
    simp [validateLogin, hl]

/-- Witness for C1 at a concrete user with 2 earlier failures: the wrong
password both returns `None` and pushes the count to 3, locking the account;
and a locked row rejects even the correct password. -/
theorem validateLogin_lockout_witness :
    ((⟨7, "alice", "hsecret", "staff", true, 2, false, none, none⟩ : User).locked = false ∧
     id "wrong" ≠ "hsecret" ∧
     (validateLogin id "t0" ⟨7, "alice", "hsecret", "staff", true, 2, false, none, none⟩ "wrong").1 = none ∧
     (validateLogin id "t0" ⟨7, "alice", "hsecret", "staff", true, 2, false, none, none⟩ "wrong").2.failed_attempts = 2 + 1 ∧
     ((validateLogin id "t0" ⟨7, "alice", "hsecret", "staff", true, 2, false, none, none⟩ "wrong").2.locked = true ↔ 3 ≤ 2 + 1)) ∧
    ((⟨7, "alice", "hsecret", "staff", true, 0, true, none, none⟩ : User).locked = true ∧
     (validateLogin id "t0" ⟨7, "alice", "hsecret", "staff", true, 0, true, none, none⟩ "hsecret").1 = none) :=
  ⟨⟨rfl, by decide,
    (validateLogin_lockout id "t0" ⟨7, "alice", "hsecret", "staff", true, 2, false, none, none⟩ "wrong").1
      rfl rfl (by decide)⟩,
   ⟨rfl,
    ((validateLogin_lockout id "t0" ⟨7, "alice", "hsecret", "staff", true, 0, true, none, none⟩ "hsecret").2
      rfl).1⟩⟩

/-- C2: the `locked` flag is monotone under every row-updating operation of
the repository other than `unlock_user`; `unlock_user` resets
`failed_attempts` to 0 and `locked` to `false`; and after an unlock a
correct-password `validate_login` on the (active) user succeeds and resets
`failed_attempts` to 0.  (`active` is `true` for every user the repository
ever creates and no operation changes it.) -/
theorem locked_monotone_unlock (hashF : String → String) (u : User) :
    (∀ op : UserOp, op ≠ UserOp.unlock → u.locked = true →
      (applyOp hashF op u).locked = true) ∧
    ((unlockUser u).failed_attempts = 0 ∧ (unlockUser u).locked = false) ∧
    (∀ pw now, u.active = true → hashF pw = u.password_hash →
      (validateLogin hashF now (unlockUser u) pw).1 =
        some { username := u.username, role := u.role } ∧
      (validateLogin hashF now (unlockUser u) pw).2.failed_attempts = 0) := by
  refine ⟨?_, ⟨rfl, rfl⟩, ?_⟩
  · intro op hne hl
    cases op with
    | login pw now => simp [applyOp, validateLogin, hl]
    | logout now => simpa [applyOp, recordLogout] using hl
    | unlock => exact absurd rfl hne
  · intro pw now ha hm
    simp [validateLogin, unlockUser, ha, beq_iff_eq, hm]

/-- Witness for C2 at a concrete locked user: a failed login and a logout
keep the lock, unlocking clears it, and a correct login after the unlock
succeeds with `failed_attempts = 0`. -/
theorem locked_monotone_unlock_witness :
    (UserOp.login "x" "t1" ≠ UserOp.unlock ∧
     (⟨3, "bob", "hpw", "staff", true, 3, true, none, none⟩ : User).locked = true ∧
     (applyOp id (UserOp.login "x" "t1") ⟨3, "bob", "hpw", "staff", true, 3, true, none, none⟩).locked = true) ∧
    ((unlockUser ⟨3, "bob", "hpw", "staff", true, 3, true, none, none⟩).failed_attempts = 0 ∧
     (unlockUser ⟨3, "bob", "hpw", "staff", true, 3, true, none, none⟩).locked = false) ∧
    ((⟨3, "bob", "hpw", "staff", true, 3, true, none, none⟩ : User).active = true ∧
     id "hpw" = "hpw" ∧
     (validateLogin id "t2" (unlockUser ⟨3, "bob", "hpw", "staff", true, 3, true, none, none⟩) "hpw").1 =
       some { username := "bob", role := "staff" } ∧
     (validateLogin id "t2" (unlockUser ⟨3, "bob", "hpw", "staff", true, 3, true, none, none⟩) "hpw").2.failed_attempts = 0) :=
  ⟨⟨by decide, rfl,
    (locked_monotone_unlock id ⟨3, "bob", "hpw", "staff", true, 3, true, none, none⟩).1
      (UserOp.login "x" "t1") (by decide) rfl⟩,
   (locked_monotone_unlock id ⟨3, "bob", "hpw", "staff", true, 3, true, none, none⟩).2.1,
   ⟨rfl, rfl,
    (locked_monotone_unlock id ⟨3, "bob", "hpw", "staff", true, 3, true, none, none⟩).2.2
      "hpw" "t2" rfl rfl⟩⟩

/-- C10 (frame property): a successful `validate_login` changes only
`failed_attempts` (to 0) and `last_login`; a failed attempt on an unlocked,
active user changes only `failed_attempts` and `locked`; a `validate_login`
on a locked or inactive user changes nothing; and `unlock_user` changes only
`failed_attempts` and `locked`.  Each equation is a record update of `u`
itself, so every field not listed is unchanged. -/
theorem login_unlock_frame (hashF : String → String) (now : String)
    (u : User) (pw : String) :
    (u.locked = false → u.active = true → hashF pw = u.password_hash →
      (validateLogin hashF now u pw).2 =
        { u with failed_attempts := 0, last_login := some now }) ∧
    (u.locked = false → u.active = true → hashF pw ≠ u.password_hash →
      (validateLogin hashF now u pw).2 =
        { u with failed_attempts := u.failed_attempts + 1,
                 locked := decide (3 ≤ u.failed_attempts + 1) }) ∧
    (u.locked = true ∨ u.active = false → (validateLogin hashF now u pw).2 = u) ∧
    unlockUser u = { u with failed_attempts := 0, locked := false } := by
  refine ⟨?_, ?_, ?_, rfl⟩
  · intro hl ha hm
    simp [validateLogin, hl, ha, beq_iff_eq, hm]
  · intro hl ha hm
    simp [validateLogin, hl, ha, beq_iff_eq, hm]
  · rintro (hl | ha)
    · simp [validateLogin, hl]
    · rcases hu : u.locked with _ | _
      · simp [validateLogin, hu, ha]
      · simp [validateLogin, hu]

/-- Witness for C10 at a concrete user: the successful-login, failed-login,
locked and unlock cases, each matching the corresponding record update. -/
theorem login_unlock_frame_witness :
    ((⟨9, "carol", "hc", "admin", true, 1, false, some "t", none⟩ : User).locked = false ∧
     (⟨9, "carol", "hc", "admin", true, 1, false, some "t", none⟩ : User).active = true ∧
     id "hc" = "hc" ∧
     (validateLogin id "t9" ⟨9, "carol", "hc", "admin", true, 1, false, some "t", none⟩ "hc").2 =
       ⟨9, "carol", "hc", "admin", true, 0, false, some "t9", none⟩) ∧
    (id "bad" ≠ "hc" ∧
     (validateLogin id "t9" ⟨9, "carol", "hc", "admin", true, 1, false, some "t", none⟩ "bad").2 =
       ⟨9, "carol", "hc", "admin", true, 2, false, some "t", none⟩) ∧
    ((⟨9, "carol", "hc", "admin", true, 1, true, some "t", none⟩ : User).locked = true ∧
     (validateLogin id "t9" ⟨9, "carol", "hc", "admin", true, 1, true, some "t", none⟩ "hc").2 =
       ⟨9, "carol", "hc", "admin", true, 1, true, some "t", none⟩) ∧
    unlockUser ⟨9, "carol", "hc", "admin", true, 1, true, some "t", none⟩ =
      ⟨9, "carol", "hc", "admin", true, 0, false, some "t", none⟩ :=
  ⟨⟨rfl, rfl, rfl,
    (login_unlock_frame id "t9" ⟨9, "carol", "hc", "admin", true, 1, false, some "t", none⟩ "hc").1
      rfl rfl rfl⟩,
   ⟨by decide,
    (login_unlock_frame id "t9" ⟨9, "carol", "hc", "admin", true, 1, false, some "t", none⟩ "bad").2.1
      rfl rfl (by decide)⟩,
   ⟨rfl,
    (login_unlock_frame id "t9" ⟨9, "carol", "hc", "admin", true, 1, true, some "t", none⟩ "hc").2.2.1
      (Or.inl rfl)⟩,
   (login_unlock_frame id "t9" ⟨9, "carol", "hc", "admin", true, 1, true, some "t", none⟩ "hc").2.2.2⟩

/-! ### C8: document generation derives phase and amount from capacity -/

/-- C8: capacity 5 derives phase `"Three Phase"` and amount
`5 * 70000 = 350000`; capacity 3 derives `"Single Phase"` and 210000; and
for every form input one generation action writes the same derived phase and
amount into both the invoice record and the agreement record. -/
theorem generation_phase_amount (invoice_ref agreement_no customer_name phone
    address consumer_no subdivision : String) (capacity : ℚ)
    (created_by created_at : String) :
    (derivedPhase 5 = "Three Phase" ∧ derivedAmount 5 = 350000) ∧
    (derivedPhase 3 = "Single Phase" ∧ derivedAmount 3 = 210000) ∧
    ((buildInvoiceInsert invoice_ref customer_name phone address consumer_no
        subdivision capacity created_by created_at).phase = derivedPhase capacity ∧
     (buildInvoiceInsert invoice_ref customer_name phone address consumer_no
        subdivision capacity created_by created_at).amount = derivedAmount capacity ∧
     (buildAgreementInsert agreement_no customer_name phone address consumer_no
        subdivision capacity created_by created_at).phase =
       (buildInvoiceInsert invoice_ref customer_name phone address consumer_no
        subdivision capacity created_by created_at).phase ∧
     (buildAgreementInsert agreement_no customer_name phone address consumer_no
        subdivision capacity created_by created_at).amount =
       (buildInvoiceInsert invoice_ref customer_name phone address consumer_no
        subdivision capacity created_by created_at).amount) := by
  refine ⟨⟨?_, ?_⟩, ⟨?_, ?_⟩, rfl, rfl, rfl, rfl⟩
  · rw [derivedPhase, if_pos (by norm_num)]
  · have h5 : (5 : ℚ) * RATE_PER_KW = 350000 := by norm_num [RATE_PER_KW]
    rw [derivedAmount, h5, pyTrunc]
    norm_num [Rat.num_ofNat, Rat.den_ofNat]
  · rw [derivedPhase, if_neg (by norm_num)]
  · have h3 : (3 : ℚ) * RATE_PER_KW = 210000 := by norm_num [RATE_PER_KW]
    rw [derivedAmount, h3, pyTrunc]
    norm_num [Rat.num_ofNat, Rat.den_ofNat]

/-! ### C7: phase split pre-seeds both labels -/

/-- Looking up the key just written. -/
theorem dictGet_dictSet_self {β : Type} (d : List (String × β)) (k : String)
    (v : β) : dictGet (dictSet d k v) k = some v := by
  induction d with
  | nil => simp [dictGet, dictSet]
  | cons p t ih =>
    by_cases h : p.1 = k
    · simp [dictGet, dictSet, h]
    · simpa [dictGet, dictSet, h, List.find?_cons, beq_iff_eq] using ih

/-- Writing one key does not change the binding of another. -/
theorem dictGet_dictSet_ne {β : Type} (d : List (String × β)) (k k' : String)
    (v : β) (h : k' ≠ k) : dictGet (dictSet d k' v) k = dictGet d k := by
  induction d with
  | nil => simp [dictGet, dictSet, List.find?_cons, beq_iff_eq, h]
  | cons p t ih =>
    obtain ⟨pk, pv⟩ := p
    by_cases hp : pk = k'
    · subst hp
      simp [dictGet, dictSet, List.find?_cons, beq_iff_eq, h]
    · by_cases hpk : pk = k
      · subst hpk
        simp [dictGet, dictSet, List.find?_cons, beq_iff_eq, hp]
      · simpa [dictGet, dictSet, hp, hpk, List.find?_cons, beq_iff_eq] using ih

/-- Counting invariant of the phase-split fold: a key present in the
accumulating dict ends with its start value plus the number of rows whose
phase equals the key. -/
theorem phaseSplit_fold_invariant (k : String) :
    ∀ (l : List InvoiceRow) (d : List (String × Nat)) (n : Nat),
      dictGet d k = some n →
      dictGet (l.foldl (fun d i => dictSet d i.phase (((dictGet d i.phase).getD 0) + 1)) d) k
        = some (n + l.countP (fun i => i.phase == k)) := by
  intro l
  induction l with
  | nil => intro d n h; simpa using h
  | cons i t ih =>
    intro d n h
    by_cases hik : i.phase = k
    · have hset : dictGet (dictSet d i.phase (((dictGet d i.phase).getD 0) + 1)) k
          = some (n + 1) := by
        rw [hik] at *
        simp [h, dictGet_dictSet_self]
      have := ih _ _ hset
      simp only [List.foldl_cons, List.countP_cons, hik] at *
      simpa [Nat.add_assoc, Nat.add_comm 1] using this
    · have hset : dictGet (dictSet d i.phase (((dictGet d i.phase).getD 0) + 1)) k
          = some n := by
        rw [dictGet_dictSet_ne _ _ _ _ hik]
        exact h
      have := ih _ _ hset
      simp only [List.foldl_cons, List.countP_cons] at *
      simpa [hik] using this

/-- C7: for every invoice set (including the empty one), `get_phase_split`
contains both keys `"Single Phase"` and `"Three Phase"`, each bound to the
number of invoices carrying that phase value (0 when none occur). -/
theorem phaseSplit_both_keys (invoices : List InvoiceRow) :
    dictGet (getPhaseSplit invoices) "Single Phase" =
      some (invoices.countP (fun i => i.phase == "Single Phase")) ∧
    dictGet (getPhaseSplit invoices) "Three Phase" =
      some (invoices.countP (fun i => i.phase == "Three Phase")) := by
  constructor
  · have h := phaseSplit_fold_invariant "Single Phase" invoices
      [("Single Phase", 0), ("Three Phase", 0)] 0 (by decide)
    simpa [getPhaseSplit] using h
  · have h := phaseSplit_fold_invariant "Three Phase" invoices
      [("Single Phase", 0), ("Three Phase", 0)] 0 (by decide)
    simpa [getPhaseSplit] using h

/-! ### C6: average deal value -/

/-- C6: on the empty invoice set `get_revenue_kpis` returns the KPI
dictionary `(0, 0, 0)` — average 0, not an error — and on a nonempty set
whose amounts all parse it returns total, count, and
`round(total / count, 2)`. -/
theorem revenueKpis_avg (invoices : List InvoiceRow) (amounts : List ℚ) :
    (invoices.length = 0 → getRevenueKpis invoices = some ⟨0, 0, 0⟩) ∧
    (invoices.mapM (fun i => pyFloat? i.amount) = some amounts →
      invoices.length ≠ 0 →
      getRevenueKpis invoices =
        some ⟨amounts.sum, invoices.length,
          pyRound2 (amounts.sum / (invoices.length : ℚ))⟩) := by
  constructor
  · intro h
    rw [List.length_eq_zero] at h
    subst h
    rfl
  · intro hmap hne
    rw [getRevenueKpis, hmap]
    simp [hne]

/-- Witness for C6: the empty set gives the KPI triple `(0, 0, 0)`, and a
one-invoice set with amount `"100"` gives average `round(100 / 1, 2)`. -/
theorem revenueKpis_avg_witness :
    (([] : List InvoiceRow).length = 0 ∧ getRevenueKpis [] = some ⟨0, 0, 0⟩) ∧
    (([⟨"BE/1", "c", "p", "a", "n", "s", "3", "Single Phase", "100", "u", "2025-01-02T03:04:05"⟩] :
        List InvoiceRow).mapM (fun i => pyFloat? i.amount) = some [(100 : ℚ)] ∧
     getRevenueKpis
        [⟨"BE/1", "c", "p", "a", "n", "s", "3", "Single Phase", "100", "u", "2025-01-02T03:04:05"⟩] =
       some ⟨[(100 : ℚ)].sum, 1, pyRound2 ([(100 : ℚ)].sum / ((1 : Nat) : ℚ))⟩) :=
  ⟨⟨rfl, (revenueKpis_avg [] []).1 rfl⟩,
   ⟨by decide,
    (revenueKpis_avg
        [⟨"BE/1", "c", "p", "a", "n", "s", "3", "Single Phase", "100", "u", "2025-01-02T03:04:05"⟩]
        [(100 : ℚ)]).2 (by decide) (by decide)⟩⟩

/-! ### C5: amount coercion across the aggregations -/

/-- A traversal fails as soon as one element fails. -/
theorem mapM_eq_none {α β : Type} (f : α → Option β) :
    ∀ l : List α, (∃ x ∈ l, f x = none) → l.mapM f = none := by
  intro l
  induction l with
  | nil => rintro ⟨x, hx, -⟩; exact absurd hx (List.not_mem_nil x)
  | cons a t ih =>
    rintro ⟨x, hx, hfx⟩
    rw [List.mapM_cons]
    rcases List.mem_cons.mp hx with rfl | hxt
    · rw [hfx]; rfl
    · cases hfa : f a with
      | none => rfl
      | some b =>
        simp only [hfa, ih ⟨x, hxt, hfx⟩]
        rfl

/-- The skipping running sum of the totals functions is the sum of the
parseable amounts. -/
theorem foldl_skip_eq_filterMap_sum {α : Type} (f : α → Option ℚ) :
    ∀ (l : List α) (acc : ℚ),
      l.foldl (fun acc i => match f i with | some v => acc + v | none => acc) acc
        = acc + (l.filterMap f).sum := by
  intro l
  induction l with
  | nil => intro acc; simp
  | cons a t ih =>
    intro acc
    cases hfa : f a with
    | none => simp [List.foldl_cons, hfa, ih]
    | some v => simp [List.foldl_cons, hfa, ih, add_assoc]

/-- C5 as amended: `calculate_invoice_totals` and
`calculate_agreement_totals` coerce each amount and skip unparseable rows,
always returning a count and the sum of the parseable amounts; but the
analytics aggregations `get_revenue_kpis`, `get_daily_revenue_series` and
`get_staff_performance` propagate the coercion error (raise) as soon as any
row's amount is unparseable instead of skipping the row. -/
theorem aggregation_amount_coercion (invoices : List InvoiceRow)
    (agreements : List AgreementRow) :
    (calculateInvoiceTotals invoices =
      { count := invoices.length,
        total_amount := (invoices.filterMap (fun i => pyFloat? i.amount)).sum }) ∧
    (calculateAgreementTotals agreements =
      { count := agreements.length,
        total_amount := (agreements.filterMap (fun a => pyFloat? a.amount)).sum }) ∧
    ((∃ i ∈ invoices, pyFloat? i.amount = none) →
      getRevenueKpis invoices = none ∧
      getDailyRevenueSeries invoices = none ∧
      getStaffPerformance invoices = none) := by
  refine ⟨?_, ?_, ?_⟩
  · rw [calculateInvoiceTotals]
    rw [foldl_skip_eq_filterMap_sum (fun i => pyFloat? i.amount) invoices 0]
    rw [zero_add]
  · rw [calculateAgreementTotals]
    rw [foldl_skip_eq_filterMap_sum (fun a => pyFloat? a.amount) agreements 0]
    rw [zero_add]
  · rintro ⟨i, hi, hnone⟩
    refine ⟨?_, ?_, ?_⟩
    · rw [getRevenueKpis, mapM_eq_none _ _ ⟨i, hi, hnone⟩]; rfl
    · rw [getDailyRevenueSeries, mapM_eq_none _ _ ⟨i, hi, by rw [hnone]; rfl⟩]; rfl
    · rw [getStaffPerformance, mapM_eq_none _ _ ⟨i, hi, by rw [hnone]; rfl⟩]; rfl

/-- Counterexample to C5 as stated: on a one-row invoice set whose amount is
the unparseable string `"abc"`, the revenue KPI, daily-series and
staff-performance aggregations all fail (raise) instead of skipping the row
and returning a result. -/
theorem aggregation_amount_coercion_counterexample :
    pyFloat? "abc" = none ∧
    getRevenueKpis
      [⟨"BE/KNG/PMSG/QTN/01/25/0001", "c", "p", "a", "n", "s", "3",
        "Single Phase", "abc", "staff1", "2025-01-02T03:04:05"⟩] = none ∧
    getDailyRevenueSeries
      [⟨"BE/KNG/PMSG/QTN/01/25/0001", "c", "p", "a", "n", "s", "3",
        "Single Phase", "abc", "staff1", "2025-01-02T03:04:05"⟩] = none ∧
    getStaffPerformance
      [⟨"BE/KNG/PMSG/QTN/01/25/0001", "c", "p", "a", "n", "s", "3",
        "Single Phase", "abc", "staff1", "2025-01-02T03:04:05"⟩] = none := by
  decide

/-- Witness for the amended C5 at a concrete mixed list: the one row with
amount `"xyz"` makes the analytics aggregations raise, while the totals
functions still return. -/
theorem aggregation_amount_coercion_witness :
    (∃ i ∈ [(⟨"BE/1", "c", "p", "a", "n", "s", "3", "Single Phase", "xyz",
        "u", "2025-01-02T03:04:05"⟩ : InvoiceRow)], pyFloat? i.amount = none) ∧
    (getRevenueKpis
      [⟨"BE/1", "c", "p", "a", "n", "s", "3", "Single Phase", "xyz", "u",
        "2025-01-02T03:04:05"⟩] = none ∧
     getDailyRevenueSeries
      [⟨"BE/1", "c", "p", "a", "n", "s", "3", "Single Phase", "xyz", "u",
        "2025-01-02T03:04:05"⟩] = none ∧
     getStaffPerformance
      [⟨"BE/1", "c", "p", "a", "n", "s", "3", "Single Phase", "xyz", "u",
        "2025-01-02T03:04:05"⟩] = none) :=
  ⟨⟨⟨"BE/1", "c", "p", "a", "n", "s", "3", "Single Phase", "xyz", "u",
      "2025-01-02T03:04:05"⟩, by decide, by decide⟩,
   (aggregation_amount_coercion
      [⟨"BE/1", "c", "p", "a", "n", "s", "3", "Single Phase", "xyz", "u",
        "2025-01-02T03:04:05"⟩] []).2.2
     ⟨⟨"BE/1", "c", "p", "a", "n", "s", "3", "Single Phase", "xyz", "u",
        "2025-01-02T03:04:05"⟩, by decide, by decide⟩⟩

/-! ### C4: role scoping of the history queries -/

/-- Membership is preserved by sorted insertion. -/
theorem mem_insertBy {α : Type} (le : α → α → Bool) (x a : α) :
    ∀ l : List α, a ∈ insertBy le x l ↔ a = x ∨ a ∈ l := by
  intro l
  induction l with
  | nil => simp [insertBy]
  | cons y ys ih =>
    by_cases h : le x y = true
    · simp [insertBy, h, List.mem_cons]
    · simp only [insertBy, h, if_neg, Bool.not_eq_true, List.mem_cons, ih]
      tauto

/-- Membership is preserved by sorting. -/
theorem mem_sortBy {α : Type} (le : α → α → Bool) (a : α) :
    ∀ l : List α, a ∈ sortBy le l ↔ a ∈ l := by
  intro l
  induction l with
  | nil => simp [sortBy]
  | cons x xs ih => simp [sortBy, mem_insertBy, ih, List.mem_cons]

/-- Every row of a fetched page comes from the role-scoped filter. -/
theorem runFetch_data_subset {α : Type} (createdBy : α → String)
    (matchRow : String → α → Bool) (createdAt : α → String) (table : List α)
    (role username : String) (search : Option String) (limit offset : Nat)
    (hrole : role ≠ "admin") :
    ∀ r ∈ (runFetch createdBy matchRow createdAt table role username search
        limit offset).data, createdBy r = username := by
  intro r hr
  have h1 : r ∈ (runFetch createdBy matchRow createdAt table role username
      search limit offset).data → r ∈ table.filter (fun r => createdBy r == username) := by
    intro hmem
    simp only [runFetch, if_pos hrole] at hmem
    have h2 := List.mem_of_mem_take hmem
    have h3 := List.mem_of_mem_drop h2
    rw [mem_sortBy] at h3
    rcases search with _ | s
    · exact h3
    · by_cases hs : s.data ≠ []
      · simp only [if_pos hs] at h3
        exact List.mem_of_mem_filter h3
      · simpa [if_neg hs] using h3
  have := List.mem_filter.mp (h1 hr)
  exact beq_iff_eq.mp this.2

/-- C4: with any role other than `"admin"`, every row of the page returned
by `fetch_invoices` or `fetch_agreements` was created by the requesting
user, whatever the search string; with role `"admin"` the result does not
depend on the caller's username at all. -/
theorem fetch_role_scoping (itable : List InvoiceRow)
    (atable : List AgreementRow) (role username : String)
    (search : Option String) (limit offset : Nat) :
    (role ≠ "admin" →
      (∀ r ∈ (fetchInvoices itable role username search limit offset).data,
        r.created_by = username) ∧
      (∀ r ∈ (fetchAgreements atable role username search limit offset).data,
        r.created_by = username)) ∧
    (∀ username' : String,
      fetchInvoices itable "admin" username search limit offset =
        fetchInvoices itable "admin" username' search limit offset ∧
      fetchAgreements atable "admin" username search limit offset =
        fetchAgreements atable "admin" username' search limit offset) := by
  constructor
  · intro hrole
    exact ⟨runFetch_data_subset _ _ _ itable role username search limit offset hrole,
           runFetch_data_subset _ _ _ atable role username search limit offset hrole⟩
  · intro username'
    exact ⟨rfl, rfl⟩

/-- Witness for C4: a staff query over a two-user table, with a search term
(`"555"`) matching both users' rows, still only returns rows created by the
requester. -/
theorem fetch_role_scoping_witness :
    ("staff" : String) ≠ "admin" ∧
    (∀ r ∈ (fetchInvoices
        [⟨"BE/KNG/PMSG/QTN/01/25/0001", "Asha", "555-1234", "a1", "c1", "s1",
          "3", "Single Phase", "210000", "alice", "2025-01-02T00:00:00"⟩,
         ⟨"BE/KNG/PMSG/QTN/01/25/0002", "Biju", "555-9999", "a2", "c2", "s2",
          "5", "Three Phase", "350000", "bob", "2025-01-03T00:00:00"⟩]
        "staff" "alice" (some "555") 20 0).data, r.created_by = "alice") ∧
    (∀ r ∈ (fetchAgreements
        [⟨"AG/SG/APDCL/2025/0001", "Biju", "555-9999", "a2", "c2", "s2",
          "5", "Three Phase", "350000", "bob", "2025-01-03T00:00:00"⟩]
        "staff" "alice" (some "555") 20 0).data, r.created_by = "alice") :=
  ⟨by decide,
   ((fetch_role_scoping
      [⟨"BE/KNG/PMSG/QTN/01/25/0001", "Asha", "555-1234", "a1", "c1", "s1",
        "3", "Single Phase", "210000", "alice", "2025-01-02T00:00:00"⟩,
       ⟨"BE/KNG/PMSG/QTN/01/25/0002", "Biju", "555-9999", "a2", "c2", "s2",
        "5", "Three Phase", "350000", "bob", "2025-01-03T00:00:00"⟩]
      [⟨"AG/SG/APDCL/2025/0001", "Biju", "555-9999", "a2", "c2", "s2",
        "5", "Three Phase", "350000", "bob", "2025-01-03T00:00:00"⟩]
      "staff" "alice" (some "555") 20 0).1 (by decide)).1,
   ((fetch_role_scoping
      [⟨"BE/KNG/PMSG/QTN/01/25/0001", "Asha", "555-1234", "a1", "c1", "s1",
        "3", "Single Phase", "210000", "alice", "2025-01-02T00:00:00"⟩,
       ⟨"BE/KNG/PMSG/QTN/01/25/0002", "Biju", "555-9999", "a2", "c2", "s2",
        "5", "Three Phase", "350000", "bob", "2025-01-03T00:00:00"⟩]
      [⟨"AG/SG/APDCL/2025/0001", "Biju", "555-9999", "a2", "c2", "s2",
        "5", "Three Phase", "350000", "bob", "2025-01-03T00:00:00"⟩]
      "staff" "alice" (some "555") 20 0).1 (by decide)).2⟩

/-! ### C3: the reference allocation algorithm -/

/-- The code's `max(nums) + 1 if nums else 1` agrees with the spec's
"maximum, or 0 if none found, plus one". -/
theorem matchMax_eq_getD_add_one (nums : List Int) :
    (match nums.max? with
     | some m => m + 1
     | none => (1 : Int)) = (nums.max?).getD 0 + 1 := by
  cases h : nums.max? with
  | none => rfl
  | some m => rfl

/-- C3: both allocators return prefix, current period key, and the
zero-padded (width 4) successor of the maximum parseable trailing `/`-token
among the rows of the period — 1 when no row of the period parses — exactly
as the spec words the algorithm; and on a period containing suffixes `0001`
and `0003` the next invoice reference ends in `0004`. -/
theorem nextReference_matches_spec (table : List String) (periodKey : String) :
    getNextInvoiceRef table periodKey =
      specNextReference "BE/KNG/PMSG/QTN/" table periodKey ∧
    getNextAgreementNo table periodKey =
      specNextReference "AG/SG/APDCL/" table periodKey ∧
    getNextInvoiceRef
      ["BE/KNG/PMSG/QTN/01/25/0001", "BE/KNG/PMSG/QTN/01/25/0003"] "01/25" =
      "BE/KNG/PMSG/QTN/01/25/0004" := by
  refine ⟨?_, ?_, by decide⟩
  · rw [getNextInvoiceRef, specNextReference, matchMax_eq_getD_add_one,
      periodNums, ← List.filterMap_filter]
  · rw [getNextAgreementNo, specNextReference, matchMax_eq_getD_add_one,
      periodNums, ← List.filterMap_filter]

/-! ### C9: zero-padding pads but never truncates

Support lemmas connecting `pyStrNat` to `Nat.digits`, then the claim. -/

/-- The six facts needed about a decimal digit character. -/
theorem digitChar_facts (d : Nat) (h : d < 10) :
    (Char.ofNat (48 + d)).isDigit = true ∧
    (Char.ofNat (48 + d)).isWhitespace = false ∧
    Char.ofNat (48 + d) ≠ '+' ∧
    Char.ofNat (48 + d) ≠ '-' ∧
    Char.ofNat (48 + d) ≠ '/' ∧
    (Char.ofNat (48 + d)).toNat - 48 = d := by
  interval_cases d <;> exact ⟨rfl, rfl, by decide, by decide, by decide, rfl⟩

/-- The fuel-structured digit printer agrees with `Nat.digits` read most
significant first, whenever the fuel exceeds the number printed. -/
theorem natChars_eq_digits :
    ∀ n : Nat, 0 < n → ∀ fuel : Nat, n < fuel → ∀ acc : List Char,
      natChars fuel n acc =
        ((Nat.digits 10 n).reverse.map (fun d => Char.ofNat (48 + d))) ++ acc := by
  intro n
  induction n using Nat.strong_induction_on with
  | _ n ih =>
    intro hn fuel hfuel acc
    cases fuel with
    | zero => omega
    | succ f =>
      have hd := Nat.digits_def' (by norm_num : (1 : ℕ) < 10) hn
      by_cases h10 : n < 10
      · have hdiv : n / 10 = 0 := Nat.div_eq_of_lt h10
        have hmod : n % 10 = n := Nat.mod_eq_of_lt h10
        rw [hdiv] at hd
        simp [natChars, h10, hd, hmod]
      · have hlt : n / 10 < n := Nat.div_lt_self hn (by norm_num)
        have hpos : 0 < n / 10 := Nat.div_pos (le_of_not_lt h10) (by norm_num)
        have hfl : n / 10 < f := lt_of_lt_of_le hlt (Nat.lt_succ_iff.mp hfuel)
        have hrec := ih (n / 10) hlt hpos f hfl (Char.ofNat (48 + n % 10) :: acc)
        simp only [natChars, if_neg h10]
        rw [hrec, hd]
        simp [List.append_assoc]

/-- The characters of `str(n)` are the decimal digits of `n`, most
significant first. -/
theorem pyStrNat_data (n : Nat) (hn : 0 < n) :
    (pyStrNat n).data =
      (Nat.digits 10 n).reverse.map (fun d => Char.ofNat (48 + d)) := by
  show natChars (n + 1) n [] = _
  rw [natChars_eq_digits n hn (n + 1) (Nat.lt_succ_self n) []]
  simp

/-- Every character of `str(n)` is a digit — in particular not whitespace,
not a sign, and not a separator. -/
theorem pyStrNat_char_facts (n : Nat) (hn : 0 < n) (c : Char)
    (hc : c ∈ (pyStrNat n).data) :
    c.isDigit = true ∧ c.isWhitespace = false ∧ c ≠ '+' ∧ c ≠ '-' ∧ c ≠ '/' := by
  rw [pyStrNat_data n hn] at hc
  obtain ⟨d, hd, rfl⟩ := List.mem_map.mp hc
  rw [List.mem_reverse] at hd
  have h10 : d < 10 := Nat.digits_lt_base (by norm_num) hd
  have h := digitChar_facts d h10
  exact ⟨h.1, h.2.1, h.2.2.1, h.2.2.2.1, h.2.2.2.2.1⟩

/-- `str(n)` is never empty. -/
theorem pyStrNat_ne_nil (n : Nat) (hn : 0 < n) : (pyStrNat n).data ≠ [] := by
  rw [pyStrNat_data n hn]
  simp [Nat.digits_ne_nil_iff_ne_zero.mpr (Nat.pos_iff_ne_zero.mp hn)]

/-- `str(n)` has exactly as many characters as `n` has decimal digits. -/
theorem pyStrNat_length (n : Nat) (hn : 0 < n) :
    (pyStrNat n).length = (Nat.digits 10 n).length := by
  show (pyStrNat n).data.length = _
  rw [pyStrNat_data n hn]
  simp

/-- Reading back a digit string, most significant first. -/
theorem foldl_digits_rev :
    ∀ L : List Nat, (∀ d ∈ L, d < 10) → ∀ a : Nat,
      List.foldl (fun a c => 10 * a + (c.toNat - 48)) a
        (L.reverse.map (fun d => Char.ofNat (48 + d)))
      = a * 10 ^ L.length + Nat.ofDigits 10 L := by
  intro L
  induction L with
  | nil => intro _ a; simp [Nat.ofDigits_nil]
  | cons d t ih =>
    intro hL a
    have hd : d < 10 := hL d (List.mem_cons_self d t)
    have ht : ∀ x ∈ t, x < 10 := fun x hx => hL x (List.mem_cons_of_mem d hx)
    rw [List.reverse_cons, List.map_append, List.foldl_append, ih ht a]
    simp only [List.map_cons, List.map_nil, List.foldl_cons, List.foldl_nil]
    rw [(digitChar_facts d hd).2.2.2.2.2, Nat.ofDigits_cons]
    simp only [List.length_cons, pow_succ]
    ring

/-- `str` round-trips: the numeric value of the printed digits is the
number itself. -/
theorem digitsVal_pyStrNat (n : Nat) (hn : 0 < n) :
    digitsVal (pyStrNat n).data = n := by
  rw [digitsVal, pyStrNat_data n hn]
  rw [foldl_digits_rev (Nat.digits 10 n)
    (fun d hd => Nat.digits_lt_base (by norm_num) hd) 0]
  simp [Nat.ofDigits_digits]

/-- Leading zeros do not change the numeric value. -/
theorem digitsVal_replicate_zeros :
    ∀ (k : Nat) (l : List Char),
      digitsVal (List.replicate k '0' ++ l) = digitsVal l := by
  intro k
  induction k with
  | zero => intro l; rfl
  | succ m ih =>
    intro l
    rw [List.replicate_succ, List.cons_append]
    show digitsVal (List.replicate m '0' ++ l) = digitsVal l
    exact ih l

/-- Dropping a failing predicate from a list none of whose elements satisfy
it is the identity. -/
theorem dropWhile_eq_self_of_all {p : Char → Bool} :
    ∀ l : List Char, (∀ c ∈ l, p c = false) → l.dropWhile p = l := by
  intro l h
  cases l with
  | nil => rfl
  | cons c t =>
    rw [List.dropWhile_cons, h c (List.mem_cons_self c t)]
    simp

/-- Trimming is the identity on whitespace-free strings. -/
theorem trimWs_eq_self (l : List Char)
    (h : ∀ c ∈ l, c.isWhitespace = false) : trimWs l = l := by
  rw [trimWs, dropWhile_eq_self_of_all l h,
    dropWhile_eq_self_of_all l.reverse (fun c hc => h c (List.mem_reverse.mp hc)),
    List.reverse_reverse]

/-- `int()` succeeds on any nonempty digit-only character list and returns
its value. -/
theorem pyInt?_all_digits (l : List Char) (hne : l ≠ [])
    (hdig : ∀ c ∈ l, c.isDigit = true)
    (hws : ∀ c ∈ l, c.isWhitespace = false)
    (hp : ∀ c ∈ l, c ≠ '+') (hm : ∀ c ∈ l, c ≠ '-') :
    pyInt? ⟨l⟩ = some (Int.ofNat (digitsVal l)) := by
  have htrim : trimWs l = l := trimWs_eq_self l hws
  cases l with
  | nil => exact absurd rfl hne
  | cons c rest =>
    have hc := List.mem_cons_self c rest
    rw [pyInt?]
    show (if (trimWs (c :: rest)).headD ' ' = '+' then _ else _) = _
    rw [htrim]
    rw [List.headD_cons]
    rw [if_neg (hp c hc), if_neg (hm c hc)]
    rw [decDigits?, if_pos ⟨List.cons_ne_nil c rest, List.all_eq_true.mpr hdig⟩]
    rfl

/-- The characters written by `zfill 4` on `str(n)`: the padding zeros
followed by the digits (`4 - length = 0` when no padding happens). -/
theorem zfill_pyStrNat_data (n : Nat) (hn : 0 < n) :
    (zfill 4 (pyStrNat n)).data =
      List.replicate (4 - (pyStrNat n).length) '0' ++ (pyStrNat n).data := by
  rw [zfill]
  by_cases h4 : 4 ≤ (pyStrNat n).length
  · rw [if_pos h4, Nat.sub_eq_zero_of_le h4]
    simp
  · rw [if_neg h4]
    cases hd : (pyStrNat n).data with
    | nil => exact absurd hd (pyStrNat_ne_nil n hn)
    | cons c t =>
      have hc : c ∈ (pyStrNat n).data := by
        rw [hd]; exact List.mem_cons_self c t
      have hf := pyStrNat_char_facts n hn c hc
      rw [List.headD_cons, if_neg (by push_neg; exact ⟨hf.2.2.1, hf.2.2.2.1⟩)]

/-- Character facts for the padded digit token. -/
theorem zfill_pyStrNat_char_facts (n : Nat) (hn : 0 < n) (c : Char)
    (hc : c ∈ (zfill 4 (pyStrNat n)).data) :
    c.isDigit = true ∧ c.isWhitespace = false ∧ c ≠ '+' ∧ c ≠ '-' ∧ c ≠ '/' := by
  rw [zfill_pyStrNat_data n hn] at hc
  rcases List.mem_append.mp hc with hz | hs
  · rw [List.eq_of_mem_replicate hz]
    exact ⟨rfl, rfl, by decide, by decide, by decide⟩
  · exact pyStrNat_char_facts n hn c hs

/-- Parsing the padded token returns the allocated number. -/
theorem pyInt?_zfill_pyStrNat (n : Nat) (hn : 0 < n) :
    pyInt? (zfill 4 (pyStrNat n)) = some (Int.ofNat n) := by
  have hdata := zfill_pyStrNat_data n hn
  have hfacts := zfill_pyStrNat_char_facts n hn
  have hne : (zfill 4 (pyStrNat n)).data ≠ [] := by
    rw [hdata]
    intro hcontra
    exact pyStrNat_ne_nil n hn (List.append_eq_nil.mp hcontra).2
  have heq : zfill 4 (pyStrNat n) = ⟨(zfill 4 (pyStrNat n)).data⟩ := rfl
  rw [heq, pyInt?_all_digits _ hne
    (fun c hc => (hfacts c hc).1) (fun c hc => (hfacts c hc).2.1)
    (fun c hc => (hfacts c hc).2.2.1) (fun c hc => (hfacts c hc).2.2.2.1)]
  rw [hdata, digitsVal_replicate_zeros, digitsVal_pyStrNat n hn]

/-- `str(n)` has at most 4 characters below 10000. -/
theorem pyStrNat_length_le_four (n : Nat) (hn : 0 < n) (h : n < 10000) :
    (pyStrNat n).length ≤ 4 := by
  rw [pyStrNat_length n hn]
  by_contra hlen
  push_neg at hlen
  have hb := Nat.base_pow_length_digits_le 10 n (by norm_num)
    (Nat.pos_iff_ne_zero.mp hn)
  have hple : (100000 : ℕ) ≤ 10 ^ (Nat.digits 10 n).length := by
    calc (100000 : ℕ) = 10 ^ 5 := by norm_num
    _ ≤ 10 ^ (Nat.digits 10 n).length := Nat.pow_le_pow_right (by norm_num) hlen
  have := le_trans hple hb
  omega

/-- `str(n)` has at least 5 characters from 10000 on. -/
theorem pyStrNat_length_ge_five (n : Nat) (h : 10000 ≤ n) :
    5 ≤ (pyStrNat n).length := by
  have hn : 0 < n := by omega
  rw [pyStrNat_length n hn]
  by_contra hlen
  push_neg at hlen
  have hb : n < 10 ^ (Nat.digits 10 n).length :=
    Nat.lt_base_pow_length_digits (by norm_num)
  have hple : (10 : ℕ) ^ (Nat.digits 10 n).length ≤ 10 ^ 4 :=
    Nat.pow_le_pow_right (by norm_num) (by omega)
  have h4 : (10 : ℕ) ^ 4 = 10000 := by norm_num
  omega

/-- Below 10000 the padded numeric segment is exactly 4 characters. -/
theorem zfill_pyStrNat_length_eq_four (n : Nat) (hn : 0 < n) (h : n < 10000) :
    (zfill 4 (pyStrNat n)).length = 4 := by
  show (zfill 4 (pyStrNat n)).data.length = 4
  rw [zfill_pyStrNat_data n hn, List.length_append, List.length_replicate]
  have hle := pyStrNat_length_le_four n hn h
  have hdl : (pyStrNat n).data.length = (pyStrNat n).length := rfl
  omega

/-- From 10000 on, `zfill 4` returns its argument unchanged. -/
theorem zfill_pyStrNat_id_of_ge (n : Nat) (h : 10000 ≤ n) :
    zfill 4 (pyStrNat n) = pyStrNat n := by
  rw [zfill, if_pos (le_trans (by norm_num) (pyStrNat_length_ge_five n h))]

/-- `split` never returns the empty list. -/
theorem charListSplit_ne_nil (sep : Char) :
    ∀ l : List Char, charListSplit sep l ≠ [] := by
  intro l
  cases l with
  | nil => simp [charListSplit]
  | cons c t =>
    by_cases h : c = sep
    · simp [charListSplit, h]
    · simp only [charListSplit, if_neg h]
      cases charListSplit sep t <;> simp

/-- Splitting around an explicit separator splits the two halves
independently. -/
theorem charListSplit_append_sep (sep : Char) :
    ∀ a b : List Char,
      charListSplit sep (a ++ sep :: b) =
        charListSplit sep a ++ charListSplit sep b := by
  intro a
  induction a with
  | nil => intro b; simp [charListSplit]
  | cons c t ih =>
    intro b
    by_cases h : c = sep
    · simp only [List.cons_append, charListSplit, if_pos h]
      show [] :: charListSplit sep (t ++ sep :: b) = _
      rw [ih b]
    · cases hs : charListSplit sep t with
      | nil => exact absurd hs (charListSplit_ne_nil sep t)
      | cons hh hhs =>
        simp only [List.cons_append, charListSplit, if_neg h, hs]
        show (match charListSplit sep (t ++ sep :: b) with
          | [] => [[c]]
          | t :: ts => (c :: t) :: ts) = (c :: hh) :: (hhs ++ charListSplit sep b)
        rw [ih b, hs]
        rfl

/-- A separator-free list splits into the single token it is. -/
theorem charListSplit_no_sep (sep : Char) :
    ∀ b : List Char, (∀ c ∈ b, c ≠ sep) → charListSplit sep b = [b] := by
  intro b
  induction b with
  | nil => intro _; rfl
  | cons c t ih =>
    intro h
    have hc : c ≠ sep := h c (List.mem_cons_self c t)
    have ht := ih (fun x hx => h x (List.mem_cons_of_mem c hx))
    simp only [charListSplit, if_neg hc, ht]

/-- `getLastD` looks only at a nonempty right part of an append. -/
theorem getLastD_append_right {α : Type} (l2 : List α) (hne : l2 ≠ []) :
    ∀ (l1 : List α) (d : α), (l1 ++ l2).getLastD d = l2.getLastD d := by
  intro l1
  induction l1 with
  | nil => intro d; rfl
  | cons x t ih =>
    intro d
    have hl2 : ∀ d d' : α, l2.getLastD d = l2.getLastD d' := by
      cases l2 with
      | nil => exact absurd rfl hne
      | cons y ys => intro d d'; rfl
    rw [List.cons_append, List.getLastD_cons, ih x, hl2 x d]

/-- The last `/`-token of a string ending in a separator-free token. -/
theorem lastSlashToken_eq (s : String) (pre tok : List Char)
    (hdata : s.data = pre ++ '/' :: tok) (hnosl : ∀ c ∈ tok, c ≠ '/') :
    lastSlashToken s = tok := by
  rw [lastSlashToken, hdata, charListSplit_append_sep,
    charListSplit_no_sep '/' tok hnosl,
    getLastD_append_right [tok] (by simp)]
  rfl

/-- The segment test is exactly infix membership. -/
theorem containsSeg_eq_true_iff (needle : List Char) :
    ∀ hay : List Char, containsSeg needle hay = true ↔ needle <:+: hay := by
  intro hay
  induction hay with
  | nil => simp [containsSeg, List.isEmpty_iff]
  | cons c t ih =>
    rw [containsSeg, Bool.or_eq_true, List.isPrefixOf_iff_prefix, ih,
      List.infix_cons_iff]

/-- C9: the zero-padding of the allocated sequence number pads to width 4
but never truncates — below 10000 the numeric segment is exactly 4
characters, from 10000 on the output is `str(n)` unchanged — and the
produced reference still ends in a token `int()` parses back to `n`, so the
allocator run over a table containing that reference still allocates
`n + 1`, also beyond 9999. -/
theorem zfill_pads_never_truncates (n : Nat) (monthKey : String)
    (h1 : 1 ≤ n) :
    (n < 10000 → (zfill 4 (pyStrNat n)).length = 4) ∧
    (10000 ≤ n → zfill 4 (pyStrNat n) = pyStrNat n) ∧
    pyInt? ⟨lastSlashToken
        ("BE/KNG/PMSG/QTN/" ++ monthKey ++ "/" ++ zfill 4 (pyStrNat n))⟩ =
      some (Int.ofNat n) ∧
    getNextInvoiceRef
        ["BE/KNG/PMSG/QTN/" ++ monthKey ++ "/" ++ zfill 4 (pyStrNat n)]
        monthKey =
      "BE/KNG/PMSG/QTN/" ++ monthKey ++ "/" ++ zfill 4 (pyStrNat (n + 1)) := by
  have hn : 0 < n := h1
  have hfacts := zfill_pyStrNat_char_facts n hn
  have hztok_ne : (zfill 4 (pyStrNat n)).data ≠ [] := by
    rw [zfill_pyStrNat_data n hn]
    intro hcontra
    exact pyStrNat_ne_nil n hn (List.append_eq_nil.mp hcontra).2
  have hdata :
      ("BE/KNG/PMSG/QTN/" ++ monthKey ++ "/" ++ zfill 4 (pyStrNat n)).data =
        ("BE/KNG/PMSG/QTN/".data ++ monthKey.data) ++
          '/' :: (zfill 4 (pyStrNat n)).data := by
    simp [String.data_append, List.append_assoc]
  have htok : lastSlashToken
      ("BE/KNG/PMSG/QTN/" ++ monthKey ++ "/" ++ zfill 4 (pyStrNat n)) =
      (zfill 4 (pyStrNat n)).data :=
    lastSlashToken_eq _ _ _ hdata (fun c hc => (hfacts c hc).2.2.2.2)
  have hparse : pyInt? ⟨lastSlashToken
      ("BE/KNG/PMSG/QTN/" ++ monthKey ++ "/" ++ zfill 4 (pyStrNat n))⟩ =
      some (Int.ofNat n) := by
    rw [htok]
    exact pyInt?_zfill_pyStrNat n hn
  refine ⟨fun h => zfill_pyStrNat_length_eq_four n hn h,
    fun h => zfill_pyStrNat_id_of_ge n h, hparse, ?_⟩
  have hpre : ("BE/KNG/PMSG/QTN/" : String).data =
      "BE/KNG/PMSG/QTN".data ++ ['/'] := by decide
  have hinfix : ("/" ++ monthKey ++ "/").data <:+:
      ("BE/KNG/PMSG/QTN/" ++ monthKey ++ "/" ++ zfill 4 (pyStrNat n)).data := by
    refine ⟨"BE/KNG/PMSG/QTN".data, (zfill 4 (pyStrNat n)).data, ?_⟩
    simp [String.data_append, hpre, List.append_assoc]
  have hcont : strContains
      ("BE/KNG/PMSG/QTN/" ++ monthKey ++ "/" ++ zfill 4 (pyStrNat n))
      ("/" ++ monthKey ++ "/") = true :=
    (containsSeg_eq_true_iff _ _).mpr hinfix
  have hnums : periodNums
      ["BE/KNG/PMSG/QTN/" ++ monthKey ++ "/" ++ zfill 4 (pyStrNat n)]
      monthKey = [Int.ofNat n] := by
    rw [periodNums]
    simp [List.filter_cons, hcont, List.filterMap_cons, hparse]
  simp only [getNextInvoiceRef, hnums]
  have hmax : (match ([Int.ofNat n] : List Int).max? with
      | some m => m + 1
      | none => (1 : Int)) = Int.ofNat (n + 1) := rfl
  rw [hmax]
  rfl

/-- Witness for C9 at `n = 12345` (beyond the 4-digit range) with period key
`01/25`. -/
theorem zfill_pads_never_truncates_witness :
    1 ≤ 12345 ∧
    ((12345 < 10000 → (zfill 4 (pyStrNat 12345)).length = 4) ∧
     (10000 ≤ 12345 → zfill 4 (pyStrNat 12345) = pyStrNat 12345) ∧
     pyInt? ⟨lastSlashToken
        ("BE/KNG/PMSG/QTN/" ++ "01/25" ++ "/" ++ zfill 4 (pyStrNat 12345))⟩ =
       some (Int.ofNat 12345) ∧
     getNextInvoiceRef
        ["BE/KNG/PMSG/QTN/" ++ "01/25" ++ "/" ++ zfill 4 (pyStrNat 12345)]
        "01/25" =
       "BE/KNG/PMSG/QTN/" ++ "01/25" ++ "/" ++ zfill 4 (pyStrNat (12345 + 1))) :=
  ⟨by decide, zfill_pads_never_truncates 12345 "01/25" (by decide)⟩

end BeSolar
